import Mathlib

/-!
Verification of the nGraph MLIR compiler core (`MLIRCompiler` in the CPU
backend) and the flat type-dispatch primitive (`DiscreteTypeInfo`,
`is_type`, `as_type`, `as_type_ptr`).

The development shallowly embeds the C++ source: nodes and tensors are
identified by natural numbers, the graph is a lookup function from node
ids to node records, machine pointers become `Option Nat` (with `none`
for null), fatal assertions and the one catchable failure become an
`Except` error type, and each C++ member function becomes a Lean
function of the same name operating on explicit state.
-/

/-- The concrete type keys appearing in the dispatch table of the
source: `type_index(typeid(op::Add))`, `type_index(typeid(op::MatmulBias))`,
or the type index of any other node class, identified by a tag. -/
inductive OpTypeIndex where
  | add : OpTypeIndex
  | matmulBias : OpTypeIndex
  | other : Nat → OpTypeIndex
deriving DecidableEq

/-- A graph node as the compiler sees it: for each output slot the
produced tensor id together with the node ids of the consumers of
that slot (the nodes owning the `descriptor::Input`s returned by
`get_output_inputs`), the argument (producer) node ids returned by
`get_arguments`, the concrete operation type (the `type_index` used
as dispatch key), and the diagnostic name (`description`). -/
structure NgNode where
  outputs : List (Nat × List Nat)
  args : List Nat
  opType : OpTypeIndex
  description : String
deriving DecidableEq

/-- Failure modes of the compiler: `NGRAPH_ASSERT` / `NGRAPH_FAIL` /
`assert` style fatal conditions, and the single thrown, catchable
`unsupported_op` exception carrying its message. -/
inductive MlirError where
  | fatalAssert : String → MlirError
  | unsupportedOp : String → MlirError
deriving DecidableEq

/-- The `if (std::find(begin, end, x) == end) push_back(x)` idiom used by
`build_tensors_list` for both boundary lists. -/
def pushUnique (l : List Nat) (t : Nat) : List Nat :=
  if t ∈ l then l else l ++ [t]

/-- Inner loop of `build_tensors_list` over the consumer set of one output
slot: each consumer lying outside the subgraph classifies the slot tensor
as a boundary output, deduplicated. -/
def collectOutputSlot (sub : List Nat) (t : Nat) (cons : List Nat)
    (opT : List Nat) : List Nat :=
  cons.foldl (fun acc c => if c ∈ sub then acc else pushUnique acc t) opT

/-- Loop of `build_tensors_list` over all output slots of one node. -/
def collectNodeOutputs (sub : List Nat) (n : NgNode) (opT : List Nat) :
    List Nat :=
  n.outputs.foldl (fun acc s => collectOutputSlot sub s.1 s.2 acc) opT

/-- Loop of `build_tensors_list` over the argument (producer) nodes of one
node: every output tensor of an out-of-subgraph producer is registered as
a boundary input, deduplicated. -/
def collectNodeInputs (g : Nat → NgNode) (sub : List Nat) (n : NgNode)
    (ipT : List Nat) : List Nat :=
  n.args.foldl
    (fun acc a =>
      if a ∈ sub then acc
      else (g a).outputs.foldl (fun acc2 s => pushUnique acc2 s.1) acc)
    ipT

/-- `MLIRCompiler::build_tensors_list`: walks the subgraph once and returns
(`m_op_tensors`, `m_ip_tensors`), both starting empty. -/
def build_tensors_list (g : Nat → NgNode) (sub : List Nat) :
    List Nat × List Nat :=
  sub.foldl
    (fun acc nid =>
      (collectNodeOutputs sub (g nid) acc.1,
       collectNodeInputs g sub (g nid) acc.2))
    ([], [])

/-- Specification-side deduplication keeping the first occurrence of each
element, used to state the first-discovery-order property. -/
def dedupKeepFirst (l : List Nat) : List Nat :=
  l.foldl pushUnique []

/-- Specification-side stream of boundary-output discoveries in traversal
order: one occurrence of the slot tensor per out-of-subgraph consumer. -/
def outputCandidates (g : Nat → NgNode) (sub : List Nat) : List Nat :=
  sub.flatMap fun nid =>
    (g nid).outputs.flatMap fun s =>
      s.2.filterMap fun c => if c ∈ sub then none else some s.1

/-- Specification-side stream of boundary-input discoveries in traversal
order: all output tensors of each out-of-subgraph producer of each unit
node. -/
def inputCandidates (g : Nat → NgNode) (sub : List Nat) : List Nat :=
  sub.flatMap fun nid =>
    (g nid).args.flatMap fun a =>
      if a ∈ sub then [] else (g a).outputs.map Prod.fst

theorem mem_pushUnique {l : List Nat} {t x : Nat} :
    x ∈ pushUnique l t ↔ x ∈ l ∨ x = t := by
  by_cases h : t ∈ l
  · simp only [pushUnique, if_pos h]
    exact ⟨Or.inl, fun hx => hx.elim id (fun e => e ▸ h)⟩
  · simp [pushUnique, if_neg h]

theorem nodup_pushUnique {l : List Nat} {t : Nat} (h : l.Nodup) :
    (pushUnique l t).Nodup := by
  by_cases ht : t ∈ l
  · rw [pushUnique, if_pos ht]; exact h
  · simpa [pushUnique, if_neg ht, List.nodup_append] using ⟨h, ht⟩

theorem foldl_pushUnique_mem (l : List Nat) :
    ∀ (acc : List Nat) (x : Nat),
      x ∈ l.foldl pushUnique acc ↔ x ∈ acc ∨ x ∈ l := by
  induction l with
  | nil => simp
  | cons a l ih =>
    intro acc x
    simp only [List.foldl_cons, ih, mem_pushUnique, List.mem_cons]
    tauto

theorem foldl_pushUnique_nodup (l : List Nat) :
    ∀ acc : List Nat, acc.Nodup → (l.foldl pushUnique acc).Nodup := by
  induction l with
  | nil => exact fun _ h => h
  | cons a l ih => exact fun acc h => ih _ (nodup_pushUnique h)

theorem collectOutputSlot_eq_fold (sub : List Nat) (t : Nat)
    (cons : List Nat) : ∀ opT, collectOutputSlot sub t cons opT =
      (cons.filterMap fun c => if c ∈ sub then none else some t).foldl
        pushUnique opT := by
  induction cons with
  | nil => intro opT; rfl
  | cons c cs ih =>
    intro opT
    by_cases h : c ∈ sub
    · simp [collectOutputSlot, List.filterMap_cons, if_pos h] at ih ⊢
      exact ih opT
    · simp [collectOutputSlot, List.filterMap_cons, if_neg h] at ih ⊢
      exact ih (pushUnique opT t)

theorem collectNodeOutputs_eq_fold (sub : List Nat) (n : NgNode) :
    ∀ opT, collectNodeOutputs sub n opT =
      (n.outputs.flatMap fun s =>
        s.2.filterMap fun c => if c ∈ sub then none else some s.1).foldl
        pushUnique opT := by
  show ∀ opT, n.outputs.foldl _ opT = _
  generalize n.outputs = slots
  induction slots with
  | nil => intro opT; rfl
  | cons s ss ih =>
    intro opT
    rw [List.foldl_cons, ih, collectOutputSlot_eq_fold, List.flatMap_cons,
      List.foldl_append]

theorem collectNodeInputs_eq_fold (g : Nat → NgNode) (sub : List Nat)
    (n : NgNode) : ∀ ipT, collectNodeInputs g sub n ipT =
      (n.args.flatMap fun a =>
        if a ∈ sub then [] else (g a).outputs.map Prod.fst).foldl
        pushUnique ipT := by
  show ∀ ipT, n.args.foldl _ ipT = _
  generalize n.args = as
  induction as with
  | nil => intro ipT; rfl
  | cons a as ih =>
    intro ipT
    by_cases h : a ∈ sub
    · simp only [List.foldl_cons, List.flatMap_cons, if_pos h,
        List.nil_append]
      exact ih _
    · simp only [List.foldl_cons, List.flatMap_cons, if_neg h,
        List.foldl_append, List.foldl_map]
      exact ih _

theorem build_tensors_list_fst_eq (g : Nat → NgNode) (sub : List Nat) :
    (build_tensors_list g sub).1 =
      (outputCandidates g sub).foldl pushUnique [] := by
  have main : ∀ (l : List Nat) (accO accI : List Nat),
      (l.foldl (fun acc nid =>
        (collectNodeOutputs sub (g nid) acc.1,
         collectNodeInputs g sub (g nid) acc.2)) (accO, accI)).1 =
      (l.flatMap fun nid =>
        (g nid).outputs.flatMap fun s =>
          s.2.filterMap fun c => if c ∈ sub then none else some s.1).foldl
        pushUnique accO := by
    intro l
    induction l with
    | nil => intro accO accI; rfl
    | cons nid l ih =>
      intro accO accI
      simp only [List.foldl_cons, List.flatMap_cons, List.foldl_append]
      rw [ih, collectNodeOutputs_eq_fold]
  exact main sub [] []

theorem build_tensors_list_snd_eq (g : Nat → NgNode) (sub : List Nat) :
    (build_tensors_list g sub).2 =
      (inputCandidates g sub).foldl pushUnique [] := by
  have main : ∀ (l : List Nat) (accO accI : List Nat),
      (l.foldl (fun acc nid =>
        (collectNodeOutputs sub (g nid) acc.1,
         collectNodeInputs g sub (g nid) acc.2)) (accO, accI)).2 =
      (l.flatMap fun nid =>
        (g nid).args.flatMap fun a =>
          if a ∈ sub then [] else (g a).outputs.map Prod.fst).foldl
        pushUnique accI := by
    intro l
    induction l with
    | nil => intro accO accI; rfl
    | cons nid l ih =>
      intro accO accI
      simp only [List.foldl_cons, List.flatMap_cons, List.foldl_append]
      rw [ih, collectNodeInputs_eq_fold]
  exact main sub [] []

theorem mem_outputCandidates (g : Nat → NgNode) (sub : List Nat) (x : Nat) :
    x ∈ outputCandidates g sub ↔
      ∃ nid ∈ sub, ∃ s ∈ (g nid).outputs, s.1 = x ∧ ∃ c ∈ s.2, c ∉ sub := by
  simp only [outputCandidates, List.mem_flatMap, List.mem_filterMap]
  constructor
  · rintro ⟨nid, hnid, s, hs, c, hc, hsome⟩
    by_cases hcs : c ∈ sub
    · simp [if_pos hcs] at hsome
    · simp only [if_neg hcs, Option.some.injEq] at hsome
      exact ⟨nid, hnid, s, hs, hsome, c, hc, hcs⟩
  · rintro ⟨nid, hnid, s, hs, hx, c, hc, hcs⟩
    exact ⟨nid, hnid, s, hs, c, hc, by simp [if_neg hcs, hx]⟩

theorem mem_inputCandidates (g : Nat → NgNode) (sub : List Nat) (x : Nat) :
    x ∈ inputCandidates g sub ↔
      ∃ nid ∈ sub, ∃ a ∈ (g nid).args, a ∉ sub ∧
        ∃ s ∈ (g a).outputs, s.1 = x := by
  simp only [inputCandidates, List.mem_flatMap]
  constructor
  · rintro ⟨nid, hnid, a, ha, hx⟩
    by_cases has : a ∈ sub
    · simp [if_pos has] at hx
    · simp only [if_neg has, List.mem_map] at hx
      obtain ⟨s, hs, hsx⟩ := hx
      exact ⟨nid, hnid, a, ha, has, s, hs, hsx⟩
  · rintro ⟨nid, hnid, a, ha, has, s, hs, hsx⟩
    exact ⟨nid, hnid, a, ha, by
      simp only [if_neg has, List.mem_map]
      exact ⟨s, hs, hsx⟩⟩

/-- C1: for every compilation unit, a tensor produced by a unit node is in
the boundary-output list `m_op_tensors` iff some consumer of one of its
producing slots lies outside the unit (so in-unit consumers do not veto
the classification), the list has no duplicates, and it equals the
first-discovery-order deduplication of the traversal's discovery stream. -/
theorem claim_C1_boundary_outputs (g : Nat → NgNode) (sub : List Nat) :
    (∀ x, x ∈ (build_tensors_list g sub).1 ↔
      ∃ nid ∈ sub, ∃ s ∈ (g nid).outputs, s.1 = x ∧ ∃ c ∈ s.2, c ∉ sub)
    ∧ (build_tensors_list g sub).1.Nodup
    ∧ (build_tensors_list g sub).1 = dedupKeepFirst (outputCandidates g sub) := by
  refine ⟨fun x => ?_, ?_, ?_⟩
  · rw [build_tensors_list_fst_eq, foldl_pushUnique_mem]
    simp [mem_outputCandidates]
  · rw [build_tensors_list_fst_eq]
    exact foldl_pushUnique_nodup _ _ List.nodup_nil
  · rw [build_tensors_list_fst_eq]; rfl

/-- Graphs as built by nGraph are coherent: a node listed as a consumer of
some output slot of node `p` has `p` among its argument (producer) nodes. -/
def ConsumerArgsCoherent (g : Nat → NgNode) : Prop :=
  ∀ p n s, s ∈ (g p).outputs → n ∈ s.2 → p ∈ (g n).args

/-- C2: the boundary-input list `m_ip_tensors` contains a tensor iff some
unit node has an out-of-unit producer among its arguments one of whose
output slots produces that tensor; the list has no duplicates and is the
first-discovery-order deduplication of the traversal's discovery stream;
and in a coherent graph a tensor produced outside the unit and consumed by
at least one node inside it appears in the list exactly once, however many
in-unit consumers reference it. -/
theorem claim_C2_boundary_inputs (g : Nat → NgNode) (sub : List Nat) :
    (∀ x, x ∈ (build_tensors_list g sub).2 ↔
      ∃ nid ∈ sub, ∃ a ∈ (g nid).args, a ∉ sub ∧
        ∃ s ∈ (g a).outputs, s.1 = x)
    ∧ (build_tensors_list g sub).2.Nodup
    ∧ (build_tensors_list g sub).2 = dedupKeepFirst (inputCandidates g sub)
    ∧ (ConsumerArgsCoherent g →
        ∀ t p n s, p ∉ sub → s ∈ (g p).outputs → s.1 = t → n ∈ sub →
          n ∈ s.2 → (build_tensors_list g sub).2.count t = 1) := by
  have hmem : ∀ x, x ∈ (build_tensors_list g sub).2 ↔
      ∃ nid ∈ sub, ∃ a ∈ (g nid).args, a ∉ sub ∧
        ∃ s ∈ (g a).outputs, s.1 = x := by
    intro x
    rw [build_tensors_list_snd_eq, foldl_pushUnique_mem]
    simp [mem_inputCandidates]
  have hnd : (build_tensors_list g sub).2.Nodup := by
    rw [build_tensors_list_snd_eq]
    exact foldl_pushUnique_nodup _ _ List.nodup_nil
  refine ⟨hmem, hnd, ?_, ?_⟩
  · rw [build_tensors_list_snd_eq]; rfl
  · intro hco t p n s hp hs hst hn hcons
    have hmemt : t ∈ (build_tensors_list g sub).2 :=
      (hmem t).2 ⟨n, hn, p, hco p n s hs hcons, hp, s, hs, hst⟩
    exact List.count_eq_one_of_mem hnd hmemt

/-- An IR value: either the i-th argument of the built `main` function
(`function->getArgument(i)`) or a value produced by an emitted
instruction (`getResult()` of the created op). -/
inductive MValue where
  | arg : Nat → MValue
  | instr : Nat → MValue
deriving DecidableEq

/-- The instance state `m_tensor_to_value_map`: tensor id to IR value,
in insertion order, mirroring `std::map` contents keyed by pointer. -/
abbrev VMap := List (Nat × MValue)

/-- Lookup of a tensor key in the map (`m_tensor_to_value_map.find`). -/
def lookupVal (m : VMap) (t : Nat) : Option MValue :=
  (m.find? fun p => p.1 == t).map Prod.snd

/-- Whether the map holds an entry for the tensor. -/
def hasKey (m : VMap) (t : Nat) : Bool :=
  (m.find? fun p => p.1 == t).isSome

/-- `std::map::insert` as `build_module` uses it while seeding: a key
already present is left untouched, a new key is appended. -/
def map_insert (m : VMap) (t : Nat) (v : MValue) : VMap :=
  if hasKey m t then m else m ++ [(t, v)]

/-- `MLIRCompiler::get_tensor_value`: the `NGRAPH_ASSERT` on a missing
entry becomes a fatal error. -/
def get_tensor_value (m : VMap) (t : Nat) : Except MlirError MValue :=
  match m.find? fun p => p.1 == t with
  | some p => .ok p.2
  | none => .error (.fatalAssert "Undefined tensor")

/-- `MLIRCompiler::update_tensor_value`: the `NGRAPH_ASSERT` on a present
entry becomes a fatal error; otherwise the new binding is inserted. -/
def update_tensor_value (m : VMap) (t : Nat) (v : MValue) :
    Except MlirError VMap :=
  match m.find? fun p => p.1 == t with
  | some _ => .error (.fatalAssert "tensor value already defined")
  | none => .ok (m ++ [(t, v)])

/-- The seeding loop of `build_module`: the i-th boundary-input tensor is
bound to the i-th function argument via `std::map::insert`, starting from
index `i` and map `m`. -/
def seedMapAux : List Nat → Nat → VMap → VMap
  | [], _, m => m
  | t :: ts, i, m => seedMapAux ts (i + 1) (map_insert m t (.arg i))

/-- The value map as `build_module` leaves it right before `build_ng_dialect`:
seeded from the boundary-input list into the empty map. -/
def seedMap (ipT : List Nat) : VMap :=
  seedMapAux ipT 0 []

theorem hasKey_iff (m : VMap) (t : Nat) :
    hasKey m t = true ↔ t ∈ m.map Prod.fst := by
  unfold hasKey
  rw [List.find?_isSome]
  simp [List.mem_map]

theorem hasKey_false_iff (m : VMap) (t : Nat) :
    hasKey m t = false ↔ t ∉ m.map Prod.fst := by
  rw [Bool.eq_false_iff, Ne, hasKey_iff]

theorem keys_map_insert (m : VMap) (t : Nat) (v : MValue)
    (h : (m.map Prod.fst).Nodup) : ((map_insert m t v).map Prod.fst).Nodup := by
  unfold map_insert
  by_cases hk : hasKey m t
  · rw [if_pos hk]; exact h
  · rw [if_neg hk]
    have ht : t ∉ m.map Prod.fst :=
      (hasKey_false_iff m t).1 (Bool.eq_false_iff.2 hk)
    rw [List.map_append]
    simp only [List.map_cons, List.map_nil]
    exact h.append (List.nodup_singleton t)
      (fun a ha hat => by simp at hat; exact ht (hat ▸ ha))

theorem find?_of_not_hasKey (m : VMap) (t : Nat)
    (h : hasKey m t = false) : (m.find? fun p => p.1 == t) = none := by
  unfold hasKey at h
  cases hf : m.find? fun p => p.1 == t with
  | some p => rw [hf] at h; simp at h
  | none => rfl

theorem lookupVal_append_left (m m2 : VMap) (t : Nat)
    (h : hasKey m t = true) :
    lookupVal (m ++ m2) t = lookupVal m t := by
  unfold lookupVal
  rw [List.find?_append]
  unfold hasKey at h
  cases hf : m.find? fun p => p.1 == t with
  | some p => simp [hf]
  | none => rw [hf] at h; simp at h

theorem hasKey_append_left (m m2 : VMap) (t : Nat)
    (h : hasKey m t = true) : hasKey (m ++ m2) t = true := by
  unfold hasKey at h ⊢
  rw [List.find?_append]
  cases hf : m.find? fun p => p.1 == t with
  | some p => simp [hf]
  | none => rw [hf] at h; simp at h

theorem seedMapAux_preserves (ts : List Nat) :
    ∀ (i : Nat) (m : VMap) (t : Nat), hasKey m t = true →
      lookupVal (seedMapAux ts i m) t = lookupVal m t ∧
      hasKey (seedMapAux ts i m) t = true := by
  induction ts with
  | nil => intro i m t h; exact ⟨rfl, h⟩
  | cons u ts ih =>
    intro i m t h
    unfold seedMapAux map_insert
    by_cases hk : hasKey m u
    · rw [if_pos hk]; exact ih _ _ _ h
    · rw [if_neg hk]
      have h2 : hasKey (m ++ [(u, MValue.arg i)]) t = true :=
        hasKey_append_left _ _ _ h
      obtain ⟨hl, hh⟩ := ih (i + 1) (m ++ [(u, MValue.arg i)]) t h2
      exact ⟨hl.trans (lookupVal_append_left _ _ _ h), hh⟩

theorem hasKey_append_fresh (m : VMap) (u t : Nat) (v : MValue)
    (h1 : hasKey m t = false) (h2 : t ≠ u) :
    hasKey (m ++ [(u, v)]) t = false := by
  rw [hasKey_false_iff] at h1 ⊢
  simp only [List.map_append, List.mem_append, List.map_cons, List.map_nil,
    List.mem_singleton]
  rintro (hc | hc)
  · exact h1 hc
  · exact h2 hc

theorem seedMapAux_keys (ts : List Nat) :
    ∀ (i : Nat) (m : VMap), (∀ t ∈ ts, hasKey m t = false) → ts.Nodup →
      (seedMapAux ts i m).map Prod.fst = m.map Prod.fst ++ ts := by
  induction ts with
  | nil => intro i m _ _; simp [seedMapAux]
  | cons u ts ih =>
    intro i m hfresh hnd
    unfold seedMapAux map_insert
    rw [if_neg (by simp [hfresh u (by simp)])]
    have hnd' := List.nodup_cons.1 hnd
    have hfresh' : ∀ t ∈ ts, hasKey (m ++ [(u, MValue.arg i)]) t = false :=
      fun t ht => hasKey_append_fresh m u t _ (hfresh t (by simp [ht]))
        (fun he => hnd'.1 (he ▸ ht))
    rw [ih (i + 1) _ hfresh' hnd'.2]
    simp

theorem lookupVal_singleton_last (m : VMap) (u : Nat) (v : MValue)
    (h : hasKey m u = false) : lookupVal (m ++ [(u, v)]) u = some v := by
  unfold lookupVal
  rw [List.find?_append, find?_of_not_hasKey m u h]
  simp

theorem seedMapAux_get (ts : List Nat) :
    ∀ (k : Nat) (h : k < ts.length) (i : Nat) (m : VMap),
      ts.Nodup → (∀ t ∈ ts, hasKey m t = false) →
      lookupVal (seedMapAux ts i m) (ts.get ⟨k, h⟩) =
        some (.arg (i + k)) := by
  induction ts with
  | nil => intro k h; exact absurd h (by simp)
  | cons u ts ih =>
    intro k h i m hnd hfresh
    have hu : hasKey m u = false := hfresh u (by simp)
    unfold seedMapAux map_insert
    rw [if_neg (by simp [hu])]
    have hnd' := List.nodup_cons.1 hnd
    cases k with
    | zero =>
      have hkey : hasKey (m ++ [(u, MValue.arg i)]) u = true := by
        unfold hasKey
        rw [List.find?_append, find?_of_not_hasKey m u hu]
        simp
      have hpres := (seedMapAux_preserves ts (i + 1) _ u hkey).1
      have hget : (u :: ts).get ⟨0, h⟩ = u := rfl
      rw [hget, hpres, lookupVal_singleton_last m u _ hu]
      simp
    | succ k =>
      have hfresh' : ∀ t ∈ ts, hasKey (m ++ [(u, MValue.arg i)]) t = false :=
        fun t ht => hasKey_append_fresh m u t _ (hfresh t (by simp [ht]))
          (fun he => hnd'.1 (he ▸ ht))
      have hk : k < ts.length := by
        have h2 : k + 1 < ts.length + 1 := by simpa using h
        omega
      have := ih k hk (i + 1) (m ++ [(u, MValue.arg i)]) hnd'.2 hfresh'
      rw [show (u :: ts).get ⟨k + 1, h⟩ = ts.get ⟨k, hk⟩ from rfl, this,
        show i + 1 + k = i + (k + 1) from by omega]

theorem get_eq_lookup (m : VMap) (t : Nat) :
    get_tensor_value m t =
      match lookupVal m t with
      | some v => .ok v
      | none => .error (.fatalAssert "Undefined tensor") := by
  unfold get_tensor_value lookupVal
  cases m.find? fun p => p.1 == t <;> simp

theorem update_ok_keys (m : VMap) (t : Nat) (v : MValue) (m2 : VMap)
    (hup : update_tensor_value m t v = .ok m2)
    (h : (m.map Prod.fst).Nodup) : (m2.map Prod.fst).Nodup := by
  unfold update_tensor_value at hup
  cases hf : m.find? fun p => p.1 == t with
  | some p => rw [hf] at hup; exact absurd hup (by simp)
  | none =>
    rw [hf] at hup
    have hm2 : m2 = m ++ [(t, v)] := by
      have h2 := hup; simp at h2; exact h2.symm
    subst hm2
    have ht : t ∉ m.map Prod.fst :=
      (hasKey_false_iff m t).1 (by unfold hasKey; rw [hf]; rfl)
    rw [List.map_append]
    simp only [List.map_cons, List.map_nil]
    exact h.append (List.nodup_singleton t)
      (fun a ha hat => by simp at hat; exact ht (hat ▸ ha))

/-- Reachable states of `m_tensor_to_value_map`: seeded by `build_module`
from some boundary-input list, then grown only through successful calls
to `update_tensor_value`. -/
inductive ReachableVMap : VMap → Prop where
  | seed (ipT : List Nat) : ReachableVMap (seedMap ipT)
  | step {m : VMap} {t : Nat} {v : MValue} {m2 : VMap} :
      ReachableVMap m → update_tensor_value m t v = .ok m2 → ReachableVMap m2

theorem seedMap_keys_nodup (ipT : List Nat) :
    ((seedMap ipT).map Prod.fst).Nodup := by
  unfold seedMap
  have main : ∀ (ts : List Nat) (i : Nat) (m : VMap),
      (m.map Prod.fst).Nodup → ((seedMapAux ts i m).map Prod.fst).Nodup := by
    intro ts
    induction ts with
    | nil => intro i m h; exact h
    | cons u ts ih =>
      intro i m h
      unfold seedMapAux
      exact ih _ _ (keys_map_insert m u _ h)
  exact main ipT 0 [] (by simp)

/-- C3: the IR value map is single-assignment. Looking up a tensor with no
entry yields exactly the fatal undefined-tensor assertion, defining a
tensor that already has an entry yields exactly the fatal
already-defined assertion, and every reachable map state (seeded by
module construction, extended only by successful updates) has pairwise
distinct tensor keys, hence at most one entry per tensor. -/
theorem claim_C3_value_map_single_assignment :
    (∀ (m : VMap) (t : Nat),
      get_tensor_value m t = .error (.fatalAssert "Undefined tensor") ↔
        hasKey m t = false)
    ∧ (∀ (m : VMap) (t : Nat) (v : MValue),
      update_tensor_value m t v =
          .error (.fatalAssert "tensor value already defined") ↔
        hasKey m t = true)
    ∧ (∀ (m : VMap) (t : Nat) (v : MValue), hasKey m t = false →
      update_tensor_value m t v = .ok (m ++ [(t, v)]))
    ∧ (∀ m : VMap, ReachableVMap m → (m.map Prod.fst).Nodup) := by
  refine ⟨?_, ?_, ?_, ?_⟩
  · intro m t
    unfold get_tensor_value hasKey
    cases m.find? fun p => p.1 == t <;> simp
  · intro m t v
    unfold update_tensor_value hasKey
    cases m.find? fun p => p.1 == t <;> simp
  · intro m t v h
    unfold update_tensor_value
    rw [find?_of_not_hasKey m t h]
  · intro m hm
    induction hm with
    | seed ipT => exact seedMap_keys_nodup ipT
    | step hr hup ih => exact update_ok_keys _ _ _ _ hup ih

/-- Witness for C3 at concrete inputs: lookup in the empty map is the
fatal undefined-tensor error, redefining a seeded tensor is the fatal
already-defined error, and a reachable two-entry map has distinct keys. -/
theorem claim_C3_witness :
    (get_tensor_value [] 0 = .error (.fatalAssert "Undefined tensor"))
    ∧ (update_tensor_value (seedMap [5, 7]) 5 (.instr 0) =
        .error (.fatalAssert "tensor value already defined"))
    ∧ ((seedMap [5, 7]).map Prod.fst).Nodup :=
  ⟨(claim_C3_value_map_single_assignment.1 [] 0).2 (by decide),
   (claim_C3_value_map_single_assignment.2.1 (seedMap [5, 7]) 5 (.instr 0)).2
     (by decide),
   claim_C3_value_map_single_assignment.2.2.2 (seedMap [5, 7])
     (ReachableVMap.seed [5, 7])⟩

/-- C10: the value map seeded by `build_module` from the boundary-input
list has exactly that list as its keys (one entry per boundary-input
tensor, nothing else), and the k-th boundary-input tensor is bound to the
k-th function argument, so a builder reading a boundary-input operand
through `get_tensor_value` receives the argument at that tensor's
boundary-list position. -/
theorem claim_C10_seeded_value_map (g : Nat → NgNode) (sub : List Nat) :
    ((seedMap (build_tensors_list g sub).2).map Prod.fst =
      (build_tensors_list g sub).2)
    ∧ (∀ (k : Nat) (h : k < (build_tensors_list g sub).2.length),
        get_tensor_value (seedMap (build_tensors_list g sub).2)
          ((build_tensors_list g sub).2.get ⟨k, h⟩) = .ok (.arg k)) := by
  have hnd : (build_tensors_list g sub).2.Nodup := by
    rw [build_tensors_list_snd_eq]
    exact foldl_pushUnique_nodup _ _ List.nodup_nil
  constructor
  · unfold seedMap
    rw [seedMapAux_keys _ 0 [] (fun t _ => by unfold hasKey; simp) hnd]
    rfl
  · intro k h
    have hl : lookupVal (seedMap (build_tensors_list g sub).2)
        ((build_tensors_list g sub).2.get ⟨k, h⟩) = some (.arg (0 + k)) :=
      seedMapAux_get _ k h 0 [] hnd (fun t _ => by unfold hasKey; simp)
    rw [get_eq_lookup, hl]
    simp

/-- Witness for C10 at a concrete unit: node 1 forms the unit, consuming
tensors 10 and 11 of outside producers 0 and 2; the seeded map binds
tensor 10 to argument 0 and tensor 11 to argument 1. -/
theorem claim_C10_witness :
    get_tensor_value
        (seedMap (build_tensors_list
          (fun nid =>
            match nid with
            | 0 => ⟨[(10, [1])], [], .other 0, "Parameter"⟩
            | 1 => ⟨[(12, [3])], [0, 2], .add, "Add"⟩
            | 2 => ⟨[(11, [1])], [], .other 0, "Parameter"⟩
            | _ => ⟨[], [1], .other 0, "Result"⟩) [1]).2)
        ((build_tensors_list
          (fun nid =>
            match nid with
            | 0 => ⟨[(10, [1])], [], .other 0, "Parameter"⟩
            | 1 => ⟨[(12, [3])], [0, 2], .add, "Add"⟩
            | 2 => ⟨[(11, [1])], [], .other 0, "Parameter"⟩
            | _ => ⟨[], [1], .other 0, "Result"⟩) [1]).2.get ⟨1, by decide⟩) =
      .ok (.arg 1) :=
  (claim_C10_seeded_value_map
    (fun nid =>
      match nid with
      | 0 => ⟨[(10, [1])], [], .other 0, "Parameter"⟩
      | 1 => ⟨[(12, [3])], [0, 2], .add, "Add"⟩
      | 2 => ⟨[(11, [1])], [], .other 0, "Parameter"⟩
      | _ => ⟨[], [1], .other 0, "Result"⟩) [1]).2 1 (by decide)

/-- The element-type enumeration `ngraph::element::Type_t` as the switch in
`get_mlir_type` enumerates it. -/
inductive Type_t where
  | undefined | dynamic | boolean | bf16
  | f32 | f64
  | i8 | i16 | i32 | i64
  | u8 | u16 | u32 | u64
deriving DecidableEq

/-- The scalar MLIR types the mapper can produce: `FloatType::getF32`,
`FloatType::getF64`, or `IntegerType::get(width)` which carries no
signedness. -/
inductive MlirEltType where
  | f32 : MlirEltType
  | f64 : MlirEltType
  | int : Nat → MlirEltType
deriving DecidableEq

/-- `MLIRCompiler::get_mlir_type(const element::Type&)`: the fixed switch
mapping element kinds to scalar IR types; the `NGRAPH_ASSERT(false)`
cases become a fatal error. -/
def get_mlir_type : Type_t → Except MlirError MlirEltType
  | .undefined | .dynamic | .boolean | .bf16 =>
      .error (.fatalAssert "MLIR: Unsupported NGraph types")
  | .f32 => .ok .f32
  | .f64 => .ok .f64
  | .i8 | .u8 => .ok (.int 8)
  | .i16 | .u16 => .ok (.int 16)
  | .i32 | .u32 => .ok (.int 32)
  | .i64 | .u64 => .ok (.int 64)

/-- C5: the element-type mapper is exactly the fixed table of the source:
f32 and f64 map to the float IR types, each signed or unsigned integer
width maps to the generic integer IR type of that width (so each
signed/unsigned pair maps identically), and boolean, bf16, dynamic and
undefined all produce the fatal unsupported-type assertion, never a
coerced type. -/
theorem claim_C5_element_type_table :
    get_mlir_type .f32 = .ok .f32
    ∧ get_mlir_type .f64 = .ok .f64
    ∧ get_mlir_type .i8 = .ok (.int 8)
    ∧ get_mlir_type .u8 = .ok (.int 8)
    ∧ get_mlir_type .i16 = .ok (.int 16)
    ∧ get_mlir_type .u16 = .ok (.int 16)
    ∧ get_mlir_type .i32 = .ok (.int 32)
    ∧ get_mlir_type .u32 = .ok (.int 32)
    ∧ get_mlir_type .i64 = .ok (.int 64)
    ∧ get_mlir_type .u64 = .ok (.int 64)
    ∧ get_mlir_type .i8 = get_mlir_type .u8
    ∧ get_mlir_type .i16 = get_mlir_type .u16
    ∧ get_mlir_type .i32 = get_mlir_type .u32
    ∧ get_mlir_type .i64 = get_mlir_type .u64
    ∧ get_mlir_type .boolean =
        .error (.fatalAssert "MLIR: Unsupported NGraph types")
    ∧ get_mlir_type .bf16 =
        .error (.fatalAssert "MLIR: Unsupported NGraph types")
    ∧ get_mlir_type .dynamic =
        .error (.fatalAssert "MLIR: Unsupported NGraph types")
    ∧ get_mlir_type .undefined =
        .error (.fatalAssert "MLIR: Unsupported NGraph types") := by
  repeat first | constructor | rfl

/-- The tensor id of the default output slot of a node
(`get_output_tensor_ptr()` with slot 0). -/
def nodeOutputTensor (n : NgNode) : Nat :=
  (n.outputs.getD 0 (0, [])).1

/-- The tensor produced by the i-th argument node of `n`
(`get_argument(i)->get_output_tensor_ptr()`). -/
def argOutputTensor (g : Nat → NgNode) (n : NgNode) (i : Nat) : Nat :=
  nodeOutputTensor (g (n.args.getD i 0))

/-- `MLIRCompiler::create_binary_op`: reads the IR values of both operand
tensors from the value map (fatal if either is undefined) and emits one
new instruction whose result value it returns. -/
def create_binary_op (g : Nat → NgNode) (vmap : VMap) (n : NgNode) :
    Except MlirError (Option MValue) :=
  match get_tensor_value vmap (argOutputTensor g n 0) with
  | .error e => .error e
  | .ok _ =>
    match get_tensor_value vmap (argOutputTensor g n 1) with
    | .error e => .error e
    | .ok _ => .ok (some (.instr 0))

/-- The builder registered for `op::Add` (`create_op<ngraph::op::Add>`). -/
def create_op_add (g : Nat → NgNode) (vmap : VMap) (n : NgNode) :
    Except MlirError (Option MValue) :=
  create_binary_op g vmap n

/-- The builder registered for `op::MatmulBias`
(`create_op<ngraph::op::MatmulBias>`): a third (bias) argument is an
explicit fatal unimplemented case. -/
def create_op_matmul_bias (g : Nat → NgNode) (vmap : VMap) (n : NgNode) :
    Except MlirError (Option MValue) :=
  if n.args.length = 2 then create_binary_op g vmap n
  else .error (.fatalAssert "Bias is not supported in MatmulBias operation")

/-- The static dispatch table `MLIRCompiler::op_dispatcher`, keyed by the
concrete node type: entries exist exactly for `op::Add` and
`op::MatmulBias`. -/
def op_dispatcher (t : OpTypeIndex) :
    Option ((Nat → NgNode) → VMap → NgNode →
      Except MlirError (Option MValue)) :=
  match t with
  | .add => some create_op_add
  | .matmulBias => some create_op_matmul_bias
  | .other _ => none

/-- The message of the thrown `unsupported_op` failure, built around the
diagnostic name returned by `description()`. -/
def unsupportedMsg (d : String) : String :=
  "The MLIR backend does not currently implement the " ++ d ++ " operation"

/-- `MLIRCompiler::create_return`: reads the IR value of every
boundary-output tensor, in boundary-output order (fatal on a missing
entry), and emits the terminating return listing them. -/
def create_return (m : VMap) : List Nat → Except MlirError (List MValue)
  | [] => .ok []
  | t :: ts =>
    match get_tensor_value m t with
    | .error e => .error e
    | .ok v =>
      match create_return m ts with
      | .error e => .error e
      | .ok vs => .ok (v :: vs)

/-- The body of `MLIRCompiler::build_ng_dialect` for the unit node: looks
the concrete type up in the dispatch table (a miss throws the catchable
`unsupported_op` naming the operation), runs the builder, records a
non-null result value under the node output tensor, then emits the
return. -/
def build_ng_dialect_node (g : Nat → NgNode) (nid : Nat) (vmap : VMap)
    (opT : List Nat) : Except MlirError VMap :=
  match op_dispatcher (g nid).opType with
  | none => .error (.unsupportedOp (unsupportedMsg (g nid).description))
  | some builder =>
    match builder g vmap (g nid) with
    | .error e => .error e
    | .ok mv =>
      match
        match mv with
        | some v => update_tensor_value vmap (nodeOutputTensor (g nid)) v
        | none => .ok vmap
      with
      | .error e => .error e
      | .ok vmap2 =>
        match create_return vmap2 opT with
        | .error e => .error e
        | .ok _ => .ok vmap2

/-- The driving loop of `build_ng_dialect`: the `NGRAPH_ASSERT` restricts
the unit to exactly one node; that node is dispatched and lowered, then
the terminating return is emitted. -/
def build_ng_dialect (g : Nat → NgNode) (sub : List Nat) (vmap : VMap)
    (opT : List Nat) : Except MlirError VMap :=
  match sub with
  | [nid] => build_ng_dialect_node g nid vmap opT
  | _ => .error (.fatalAssert "Supporting code-gen for a single node for now")

theorem get_tensor_value_error_fatal (m : VMap) (t : Nat) (e : MlirError)
    (h : get_tensor_value m t = .error e) :
    e = .fatalAssert "Undefined tensor" := by
  unfold get_tensor_value at h
  cases hf : m.find? fun p => p.1 == t with
  | some p => rw [hf] at h; exact absurd h (by simp)
  | none => rw [hf] at h; simpa using h.symm

theorem create_binary_op_error_fatal (g : Nat → NgNode) (vmap : VMap)
    (n : NgNode) (e : MlirError)
    (h : create_binary_op g vmap n = .error e) :
    ∃ s, e = .fatalAssert s := by
  unfold create_binary_op at h
  cases h0 : get_tensor_value vmap (argOutputTensor g n 0) with
  | error e0 =>
    rw [h0] at h
    simp at h
    exact ⟨_, h ▸ get_tensor_value_error_fatal _ _ _ h0⟩
  | ok v0 =>
    rw [h0] at h
    cases h1 : get_tensor_value vmap (argOutputTensor g n 1) with
    | error e1 =>
      rw [h1] at h
      simp at h
      exact ⟨_, h ▸ get_tensor_value_error_fatal _ _ _ h1⟩
    | ok v1 => rw [h1] at h; exact absurd h (by simp)

theorem dispatched_builder_error_fatal (t : OpTypeIndex) (b : _)
    (hb : op_dispatcher t = some b) (g : Nat → NgNode) (vmap : VMap)
    (n : NgNode) (e : MlirError) (h : b g vmap n = .error e) :
    ∃ s, e = .fatalAssert s := by
  cases t with
  | add =>
    simp only [op_dispatcher, Option.some.injEq] at hb
    rw [← hb] at h
    exact create_binary_op_error_fatal g vmap n e h
  | matmulBias =>
    simp only [op_dispatcher, Option.some.injEq] at hb
    rw [← hb] at h
    unfold create_op_matmul_bias at h
    by_cases h2 : n.args.length = 2
    · rw [if_pos h2] at h
      exact create_binary_op_error_fatal g vmap n e h
    · rw [if_neg h2] at h
      simp at h
      exact ⟨_, h.symm⟩
  | other k => simp [op_dispatcher] at hb

theorem update_tensor_value_error_fatal (m : VMap) (t : Nat) (v : MValue)
    (e : MlirError) (h : update_tensor_value m t v = .error e) :
    ∃ s, e = .fatalAssert s := by
  unfold update_tensor_value at h
  cases hf : m.find? fun p => p.1 == t with
  | some p => rw [hf] at h; simp at h; exact ⟨_, h.symm⟩
  | none => rw [hf] at h; exact absurd h (by simp)

theorem create_return_error_fatal (m : VMap) (ts : List Nat) (e : MlirError)
    (h : create_return m ts = .error e) : ∃ s, e = .fatalAssert s := by
  induction ts generalizing e with
  | nil => exact absurd h (by simp [create_return])
  | cons t ts ih =>
    unfold create_return at h
    cases h0 : get_tensor_value m t with
    | error e0 =>
      rw [h0] at h; simp at h
      exact ⟨_, h ▸ get_tensor_value_error_fatal _ _ _ h0⟩
    | ok v =>
      rw [h0] at h
      cases h1 : create_return m ts with
      | error e1 => rw [h1] at h; simp at h; exact h ▸ ih _ h1
      | ok vs => rw [h1] at h; exact absurd h (by simp)

theorem build_ng_dialect_miss (g : Nat → NgNode) (vmap : VMap)
    (opT : List Nat) (nid : Nat)
    (hmiss : op_dispatcher (g nid).opType = none) :
    build_ng_dialect g [nid] vmap opT =
      .error (.unsupportedOp (unsupportedMsg (g nid).description)) := by
  show build_ng_dialect_node g nid vmap opT = _
  unfold build_ng_dialect_node
  rw [hmiss]

theorem build_ng_dialect_unsupported_inv (g : Nat → NgNode) (vmap : VMap)
    (opT : List Nat) (sub : List Nat) (s : String)
    (h : build_ng_dialect g sub vmap opT = .error (.unsupportedOp s)) :
    ∃ nid, sub = [nid] ∧ op_dispatcher (g nid).opType = none ∧
      s = unsupportedMsg (g nid).description := by
  match sub with
  | [] => exact absurd h (by simp [build_ng_dialect])
  | [nid] =>
    refine ⟨nid, rfl, ?_⟩
    replace h : build_ng_dialect_node g nid vmap opT =
        .error (.unsupportedOp s) := h
    unfold build_ng_dialect_node at h
    split at h
    next hd =>
      simp only [Except.error.injEq, MlirError.unsupportedOp.injEq] at h
      exact ⟨hd, h.symm⟩
    next builder hd =>
      exfalso
      split at h
      next e hb =>
        obtain ⟨s2, hs2⟩ :=
          dispatched_builder_error_fatal _ _ hd g vmap (g nid) e hb
        rw [hs2] at h
        simp at h
      next mv hb =>
        split at h
        next e2 hm =>
          cases mv with
          | some v =>
            simp only at hm
            obtain ⟨s2, hs2⟩ := update_tensor_value_error_fatal _ _ _ _ hm
            rw [hs2] at h
            simp at h
          | none => simp at hm
        next vmap2 hm =>
          split at h
          next e3 hr =>
            obtain ⟨s2, hs2⟩ := create_return_error_fatal _ _ _ hr
            rw [hs2] at h
            simp at h
          next vs hr => simp at h
  | n1 :: n2 :: rest => exact absurd h (by simp [build_ng_dialect])

/-- Configuration of one module build: the graph, the unit
(`m_sub_graph`), and each tensor's element type and shape as its
`descriptor::Tensor` reports them. -/
structure ModuleCfg where
  g : Nat → NgNode
  subGraph : List Nat
  tensorElt : Nat → Type_t
  tensorShape : Nat → List Nat

/-- `NGTensorType::get`: shape dimensions copied unchanged plus the
mapped scalar element type. -/
structure NGTensorType where
  shape : List Nat
  elt : MlirEltType
deriving DecidableEq

/-- `MLIRCompiler::get_mlir_type(const descriptor::Tensor*)`: copies the
shape and maps the element type (fatal on an unsupported kind). -/
def get_mlir_type_of_tensor (c : ModuleCfg) (t : Nat) :
    Except MlirError NGTensorType :=
  match get_mlir_type (c.tensorElt t) with
  | .error e => .error e
  | .ok e => .ok ⟨c.tensorShape t, e⟩

/-- The two loops of `build_module` converting each boundary tensor to an
IR type for the function signature. -/
def map_types (c : ModuleCfg) : List Nat → Except MlirError (List NGTensorType)
  | [] => .ok []
  | t :: ts =>
    match get_mlir_type_of_tensor c t with
    | .error e => .error e
    | .ok ty =>
      match map_types c ts with
      | .error e => .error e
      | .ok tys => .ok (ty :: tys)

/-- `MLIRCompiler::build_module`: runs the boundary analysis, asserts both
boundary lists nonempty (inputs first), builds the argument and result
type lists, seeds the value map with one function argument per
boundary-input tensor, and lowers the unit via `build_ng_dialect`.
Returns the final value map and the boundary lists. -/
def build_module (c : ModuleCfg) :
    Except MlirError (VMap × List Nat × List Nat) :=
  if (build_tensors_list c.g c.subGraph).2.length = 0 then
    .error (.fatalAssert "Cannot have empty inputs list")
  else if (build_tensors_list c.g c.subGraph).1.length = 0 then
    .error (.fatalAssert "Cannot have empty outputs list")
  else
    match map_types c (build_tensors_list c.g c.subGraph).2 with
    | .error e => .error e
    | .ok _ =>
      match map_types c (build_tensors_list c.g c.subGraph).1 with
      | .error e => .error e
      | .ok _ =>
        match build_ng_dialect c.g c.subGraph
            (seedMap (build_tensors_list c.g c.subGraph).2)
            (build_tensors_list c.g c.subGraph).1 with
        | .error e => .error e
        | .ok vmap2 =>
          .ok (vmap2, (build_tensors_list c.g c.subGraph).2,
            (build_tensors_list c.g c.subGraph).1)

/-- C8: an empty boundary-input list or an empty boundary-output list is
a fatal configuration error: `build_module` stops with the corresponding
empty-list assertion (inputs checked first), before any type mapping or
function construction takes place. -/
theorem claim_C8_empty_boundary_fatal (c : ModuleCfg) :
    ((build_tensors_list c.g c.subGraph).2 = [] →
      build_module c = .error (.fatalAssert "Cannot have empty inputs list"))
    ∧ ((build_tensors_list c.g c.subGraph).2 ≠ [] →
      (build_tensors_list c.g c.subGraph).1 = [] →
      build_module c =
        .error (.fatalAssert "Cannot have empty outputs list")) := by
  constructor
  · intro h
    unfold build_module
    rw [h]
    rfl
  · intro h1 h2
    unfold build_module
    rw [if_neg (fun hl => h1 (List.length_eq_zero.1 hl)), h2]
    rfl

/-- Witness for C8 at concrete inputs: an empty unit has empty boundary
lists and fails on the inputs assertion; a unit node that consumes an
outside tensor but whose output has no outside consumer fails on the
outputs assertion. -/
theorem claim_C8_witness :
    build_module ⟨fun _ => ⟨[], [], .other 0, "none"⟩, [],
        fun _ => .f32, fun _ => [2, 3]⟩ =
      .error (.fatalAssert "Cannot have empty inputs list")
    ∧ build_module ⟨fun nid =>
        match nid with
        | 0 => ⟨[(10, [1])], [], .other 0, "Parameter"⟩
        | _ => ⟨[(11, [])], [0], .add, "Add"⟩, [1],
        fun _ => .f32, fun _ => [2, 3]⟩ =
      .error (.fatalAssert "Cannot have empty outputs list") :=
  ⟨(claim_C8_empty_boundary_fatal _).1 (by decide),
   (claim_C8_empty_boundary_fatal _).2 (by decide) (by decide)⟩

/-- A declared parameter type of the lowered function as `bind_arguments`
inspects it: whether the `dyn_cast` to a memref type succeeds, and the
number of dynamic dimensions the memref type reports. -/
structure MType where
  isMemRef : Bool
  dynDims : Nat
deriving DecidableEq

/-- `mlir::StaticFloatMemRef`: the argument descriptor, holding only the
raw data pointer (`none` models null). -/
structure StaticFloatMemRef where
  data : Option Nat
deriving DecidableEq

/-- `MLIRCompiler::allocate_memref_descriptor`: a non-memref parameter
yields no descriptor, a dynamically shaped memref hits `NGRAPH_FAIL`,
otherwise one descriptor with a null data pointer is allocated. -/
def allocate_memref_descriptor (t : MType) :
    Except MlirError (Option StaticFloatMemRef) :=
  if t.isMemRef = false then .ok none
  else if t.dynDims ≠ 0 then .error (.fatalAssert "NGRAPH_FAIL")
  else .ok (some ⟨none⟩)

/-- `MLIRCompiler::allocate_memref_args`: one descriptor per declared
function argument, skipping arguments that produce no descriptor. -/
def allocate_memref_args : List MType → Except MlirError (List StaticFloatMemRef)
  | [] => .ok []
  | t :: ts =>
    match allocate_memref_descriptor t with
    | .error e => .error e
    | .ok none => allocate_memref_args ts
    | .ok (some d) =>
      match allocate_memref_args ts with
      | .error e => .error e
      | .ok ds => .ok (d :: ds)

/-- A type-erased invocation argument: a memref descriptor whose data
pointer has been assigned, or the trailing scratch-allocator pointer. -/
inductive InvokeArg where
  | memref : Option Nat → InvokeArg
  | mgr : Nat → InvokeArg
deriving DecidableEq

/-- Modelled from the spec: `get_mem_mgr_arg_id` is declared in the
header, which is not part of the repository sources; per the spec the
scratch-allocator descriptor occupies the fixed reserved final position,
immediately after the declared function parameters. -/
def get_mem_mgr_arg_id (params : List MType) : Nat :=
  params.length

/-- `MLIRCompiler::bind_arguments`: allocates the descriptors, asserts
they exist, asserts their count equals the External Buffer Table size,
assigns each data pointer from the table in declaration order, asserts
the scratch slot position, and appends the scratch-allocator pointer as
the final argument. -/
def bind_arguments (params : List MType) (ext : List Nat) (mgrPtr : Nat) :
    Except MlirError (List InvokeArg) :=
  match allocate_memref_args params with
  | .error e => .error e
  | .ok descs =>
    if descs.length = 0 then
      .error (.fatalAssert "Arguments cannot be created")
    else if descs.length ≠ ext.length then
      .error (.fatalAssert
        "Number of external tensors does not match number of function arguments")
    else
      let assigned := (descs.zip ext).map fun dp => InvokeArg.memref (some dp.2)
      if assigned.length = get_mem_mgr_arg_id params then
        .ok (assigned ++ [.mgr mgrPtr])
      else .error (.fatalAssert "Mem manager argument position mismatch")

/-- Configuration of one full `compile_and_run` attempt. The lowering
pass that rewrites the built function into its memref-based form lives
outside these sources, so the declared parameter list of the lowered
function (`loweredParams`) and the outcomes of the pass manager, LLVM
conversion, engine construction and JIT invocation (the four oracle
flags) are inputs of the model. -/
structure RunCfg where
  g : Nat → NgNode
  subGraph : List Nat
  tensorElt : Nat → Type_t
  tensorShape : Nat → List Nat
  loweredParams : List MType
  externalTensors : List Nat
  memMgrPtr : Nat
  optimizeOk : Bool
  convertOk : Bool
  engineOk : Bool
  invocationOk : Bool
  scratchUsed : Nat

/-- Engine-time state owned by the compiler instance: the allocated
invocation argument descriptors (`m_invoke_args`), whether the function
builder is still alive, the live scratch allocations of `m_mem_mgr`, and
the caller-owned external buffer table. -/
structure EngineState where
  invokeArgs : List InvokeArg
  builderLive : Bool
  scratchAllocs : Nat
  externalTensors : List Nat
deriving DecidableEq

/-- `MLIRCompiler::cleanup`: frees every argument descriptor (never the
external buffers they reference), resets the function builder, and
reclaims all scratch allocations. -/
def cleanup (s : EngineState) : EngineState :=
  { invokeArgs := []
    builderLive := false
    scratchAllocs := 0
    externalTensors := s.externalTensors }

/-- Outcome of one `compile_and_run` attempt: the overall result, whether
the JIT entry point was invoked, whether `cleanup` ran, the argument
descriptors still allocated on exit, the scratch allocations still live
on exit, and the external buffer table on exit. -/
structure RunResult where
  result : Except MlirError Unit
  executed : Bool
  cleanedUp : Bool
  liveArgs : List InvokeArg
  liveScratch : Nat
  finalExternal : List Nat

/-- `MLIRCompiler::compile_and_run`: the straight-line phase sequence
`build_module; lower_dialect; optimize; bind_arguments; execute;
cleanup`. A failing phase leaves the function at once (thrown
`unsupported_op` or failed assertion), so later phases, `cleanup`
included, do not run; `lower_dialect` never checks its pass-manager
result. -/
def compile_and_run (c : RunCfg) : RunResult :=
  match build_module ⟨c.g, c.subGraph, c.tensorElt, c.tensorShape⟩ with
  | .error e => ⟨.error e, false, false, [], 0, c.externalTensors⟩
  | .ok _ =>
    if c.optimizeOk = false then
      ⟨.error (.fatalAssert "affine loop lowering failed"), false, false,
        [], 0, c.externalTensors⟩
    else
      match bind_arguments c.loweredParams c.externalTensors c.memMgrPtr with
      | .error e => ⟨.error e, false, false, [], 0, c.externalTensors⟩
      | .ok args =>
        if c.convertOk = false then
          ⟨.error (.fatalAssert "second conversion failed"), false, false,
            args, 0, c.externalTensors⟩
        else if c.engineOk = false then
          ⟨.error (.fatalAssert "failed to construct an execution engine"),
            false, false, args, 0, c.externalTensors⟩
        else if c.invocationOk = false then
          ⟨.error (.fatalAssert "JIT invocation of main failed"), true,
            false, args, c.scratchUsed, c.externalTensors⟩
        else
          let s := cleanup ⟨args, true, c.scratchUsed, c.externalTensors⟩
          ⟨.ok (), true, true, s.invokeArgs, s.scratchAllocs,
            s.externalTensors⟩

theorem allocate_memref_args_all_static (params : List MType)
    (h : ∀ t ∈ params, t.isMemRef = true ∧ t.dynDims = 0) :
    allocate_memref_args params =
      .ok (List.replicate params.length ⟨none⟩) := by
  induction params with
  | nil => rfl
  | cons t ts ih =>
    obtain ⟨h1, h2⟩ := h t (by simp)
    have ih2 := ih fun u hu => h u (List.mem_cons_of_mem _ hu)
    have hd : allocate_memref_descriptor t = .ok (some ⟨none⟩) := by
      simp [allocate_memref_descriptor, h1, h2]
    unfold allocate_memref_args
    rw [hd, ih2]
    simp [List.replicate_succ]

theorem zip_replicate_map (ext : List Nat) (d : StaticFloatMemRef) :
    ((List.replicate ext.length d).zip ext).map
        (fun dp => InvokeArg.memref (some dp.2)) =
      ext.map fun p => InvokeArg.memref (some p) := by
  induction ext with
  | nil => rfl
  | cons p ps ih => simp [List.replicate_succ, ih]

theorem bind_arguments_mismatch_error (params : List MType) (ext : List Nat)
    (mgr : Nat) (hm : ∀ t ∈ params, t.isMemRef = true ∧ t.dynDims = 0)
    (hlen : ext.length ≠ params.length) :
    ∃ s, bind_arguments params ext mgr = .error (.fatalAssert s) := by
  unfold bind_arguments
  rw [allocate_memref_args_all_static params hm]
  by_cases h0 : params.length = 0
  · refine ⟨"Arguments cannot be created", ?_⟩
    simp [h0]
  · refine ⟨"Number of external tensors does not match number of function arguments", ?_⟩
    have hr : (List.replicate params.length
        (⟨none⟩ : StaticFloatMemRef)).length = params.length := by simp
    simp only [hr]
    rw [if_neg h0, if_pos (fun he => hlen he.symm)]

/-- C6: under the pipeline invariant that every declared parameter of the
lowered function is a statically shaped memref, `bind_arguments`
allocates exactly one null-data descriptor per declared parameter; a
External Buffer Table whose size differs from the descriptor count fails
fatally, and inside `compile_and_run` that failure happens with the JIT
never invoked; on a matching size, each descriptor receives the table
pointer of its position in declaration order, and exactly one trailing
scratch-allocator descriptor is appended at the fixed final position, so
the invocation-argument list has declared-parameter count plus one
entries and ends with the scratch slot. -/
theorem claim_C6_bind_arguments (params : List MType) (ext : List Nat)
    (mgr : Nat) (hm : ∀ t ∈ params, t.isMemRef = true ∧ t.dynDims = 0)
    (hne : params ≠ []) :
    allocate_memref_args params =
        .ok (List.replicate params.length ⟨none⟩)
    ∧ (ext.length ≠ params.length →
        bind_arguments params ext mgr = .error (.fatalAssert
          "Number of external tensors does not match number of function arguments"))
    ∧ (ext.length = params.length →
        bind_arguments params ext mgr =
          .ok ((ext.map fun p => InvokeArg.memref (some p)) ++ [.mgr mgr])
        ∧ ∀ l, bind_arguments params ext mgr = .ok l →
            l.length = params.length + 1 ∧ l.getLast? = some (.mgr mgr))
    ∧ (∀ c : RunCfg, c.loweredParams = params → c.externalTensors = ext →
        ext.length ≠ params.length →
        (compile_and_run c).executed = false) := by
  have halloc := allocate_memref_args_all_static params hm
  have h0 : params.length ≠ 0 := fun h => hne (List.length_eq_zero.1 h)
  have hmis : ∀ mg : Nat, ext.length ≠ params.length →
      bind_arguments params ext mg = .error (.fatalAssert
        "Number of external tensors does not match number of function arguments") := by
    intro mg hlen
    unfold bind_arguments
    rw [halloc]
    have hr : (List.replicate params.length
        (⟨none⟩ : StaticFloatMemRef)).length = params.length := by simp
    simp only [hr]
    rw [if_neg h0, if_pos (fun he => hlen he.symm)]
  refine ⟨halloc, hmis mgr, ?_, ?_⟩
  · intro hlen
    have hbind : bind_arguments params ext mgr =
        .ok ((ext.map fun p => InvokeArg.memref (some p)) ++ [.mgr mgr]) := by
      unfold bind_arguments
      rw [halloc]
      have hr : (List.replicate params.length
          (⟨none⟩ : StaticFloatMemRef)).length = params.length := by simp
      simp only [hr]
      rw [if_neg h0, if_neg (fun he => (he : ¬ _) (hlen.symm))]
      have hzip : ((List.replicate params.length
            (⟨none⟩ : StaticFloatMemRef)).zip ext).map
            (fun dp => InvokeArg.memref (some dp.2)) =
          ext.map fun p => InvokeArg.memref (some p) := by
        rw [← hlen]
        exact zip_replicate_map ext _
      simp only [hzip]
      rw [if_pos (by simp [get_mem_mgr_arg_id, hlen])]
    refine ⟨hbind, fun l hl => ?_⟩
    rw [hbind] at hl
    have hleq : l = (ext.map fun p => InvokeArg.memref (some p)) ++
        [.mgr mgr] := by
      have h2 := hl
      simp at h2
      exact h2.symm
    subst hleq
    constructor
    · simp [hlen]
    · simp
  · intro c hp he hlen
    cases hb : build_module ⟨c.g, c.subGraph, c.tensorElt, c.tensorShape⟩ with
    | error e0 => simp [compile_and_run, hb]
    | ok r =>
      by_cases ho : c.optimizeOk = false
      · simp [compile_and_run, hb, ho]
      · have hbind := hmis c.memMgrPtr hlen
        rw [← hp, ← he] at hbind
        simp [compile_and_run, hb, ho, hbind]

/-- Witness for C6 at concrete inputs: three static memref parameters;
a two-entry buffer table fails fatally with the JIT never invoked, and a
three-entry table binds pointers in order and appends the scratch slot. -/
theorem claim_C6_witness :
    bind_arguments [⟨true, 0⟩, ⟨true, 0⟩, ⟨true, 0⟩] [100, 101] 77 =
        .error (.fatalAssert
          "Number of external tensors does not match number of function arguments")
    ∧ bind_arguments [⟨true, 0⟩, ⟨true, 0⟩, ⟨true, 0⟩] [100, 101, 102] 77 =
        .ok [.memref (some 100), .memref (some 101), .memref (some 102),
          .mgr 77] :=
  ⟨(claim_C6_bind_arguments [⟨true, 0⟩, ⟨true, 0⟩, ⟨true, 0⟩] [100, 101] 77
      (by decide) (by decide)).2.1 (by decide),
   ((claim_C6_bind_arguments [⟨true, 0⟩, ⟨true, 0⟩, ⟨true, 0⟩]
      [100, 101, 102] 77 (by decide) (by decide)).2.2.1 (by decide)).1⟩

/-- A concrete well-formed unit: node 1 is an elementwise add consuming
tensors 10 and 11 produced by the outside nodes 0 and 2, its result
tensor 12 consumed by the outside node 3. -/
def egGraph : Nat → NgNode := fun nid =>
  match nid with
  | 0 => ⟨[(10, [1])], [], .other 0, "Parameter"⟩
  | 1 => ⟨[(12, [3])], [0, 2], .add, "Add"⟩
  | 2 => ⟨[(11, [1])], [], .other 0, "Parameter"⟩
  | _ => ⟨[], [1], .other 0, "Result"⟩

/-- A full pipeline configuration around `egGraph` in which every phase
oracle reports success. -/
def egRunCfg : RunCfg :=
  { g := egGraph
    subGraph := [1]
    tensorElt := fun _ => .f32
    tensorShape := fun _ => [2, 3]
    loweredParams := [⟨true, 0⟩, ⟨true, 0⟩, ⟨true, 0⟩]
    externalTensors := [100, 101, 102]
    memMgrPtr := 77
    optimizeOk := true
    convertOk := true
    engineOk := true
    invocationOk := true
    scratchUsed := 5 }

/-- Counterexample to C7: in a run whose JIT invocation fails, the
invocation was attempted, yet `cleanup` does not run — the failed
assertion leaves `compile_and_run` before its final statement — so the
argument descriptors and scratch allocations stay live, contradicting
the claim that cleanup runs unconditionally after every invocation
attempt. -/
theorem claim_C7_counterexample :
    (compile_and_run { egRunCfg with invocationOk := false }).executed = true
    ∧ (compile_and_run { egRunCfg with invocationOk := false }).cleanedUp
        = false
    ∧ (compile_and_run { egRunCfg with invocationOk := false }).liveArgs
        = [.memref (some 100), .memref (some 101), .memref (some 102),
          .mgr 77]
    ∧ (compile_and_run { egRunCfg with invocationOk := false }).liveScratch
        = 5 := by
  refine ⟨?_, ?_, ?_, ?_⟩ <;> decide

/-- C7 as amended: `cleanup` — which frees every argument descriptor
without touching the caller-owned external buffers, releases the
builder, and reclaims all scratch allocations — runs exactly when every
phase of `compile_and_run` up to and including the invocation succeeds;
on any failing attempt the failure propagates immediately and `cleanup`
does not run, leaking the already-allocated descriptors and scratch. -/
theorem claim_C7_cleanup_final_phase (c : RunCfg) :
    ((compile_and_run c).result = .ok () →
      (compile_and_run c).cleanedUp = true
      ∧ (compile_and_run c).liveArgs = []
      ∧ (compile_and_run c).liveScratch = 0
      ∧ (compile_and_run c).finalExternal = c.externalTensors)
    ∧ (∀ e, (compile_and_run c).result = .error e →
        (compile_and_run c).cleanedUp = false)
    ∧ (∀ s : EngineState, (cleanup s).invokeArgs = []
        ∧ (cleanup s).builderLive = false
        ∧ (cleanup s).scratchAllocs = 0
        ∧ (cleanup s).externalTensors = s.externalTensors) := by
  refine ⟨?_, ?_, fun s => ⟨rfl, rfl, rfl, rfl⟩⟩ <;>
  · cases hb : build_module ⟨c.g, c.subGraph, c.tensorElt, c.tensorShape⟩ with
    | error e0 => simp [compile_and_run, hb]
    | ok r =>
      by_cases ho : c.optimizeOk = false
      · simp [compile_and_run, hb, ho]
      · cases ha : bind_arguments c.loweredParams c.externalTensors
            c.memMgrPtr with
        | error e1 => simp [compile_and_run, hb, ho, ha]
        | ok args =>
          by_cases hc : c.convertOk = false
          · simp [compile_and_run, hb, ho, ha, hc]
          · by_cases he2 : c.engineOk = false
            · simp [compile_and_run, hb, ho, ha, hc, he2]
            · by_cases hi : c.invocationOk = false
              · simp [compile_and_run, hb, ho, ha, hc, he2, hi]
              · simp [compile_and_run, hb, ho, ha, hc, he2, hi, cleanup]

/-- Witness for the amended C7 at a concrete input: the fully successful
run cleans up, leaving no live descriptors or scratch and the external
buffers untouched. -/
theorem claim_C7_witness :
    (compile_and_run egRunCfg).cleanedUp = true
    ∧ (compile_and_run egRunCfg).liveArgs = []
    ∧ (compile_and_run egRunCfg).liveScratch = 0
    ∧ (compile_and_run egRunCfg).finalExternal = [100, 101, 102] :=
  (claim_C7_cleanup_final_phase egRunCfg).1 (by rfl)

/-- `ngraph::DiscreteTypeInfo`: a flat type descriptor with a name and a
version; `addr` models the address of the static descriptor object,
since `is_castable` compares `this` against the target's address. -/
structure DiscreteTypeInfo where
  addr : Nat
  name : String
  version : Nat
deriving DecidableEq

/-- `DiscreteTypeInfo::is_castable`: identity (pointer) comparison of the
two descriptor objects, never structural comparison. -/
def is_castable (self target : DiscreteTypeInfo) : Bool :=
  self.addr == target.addr

/-- `DiscreteTypeInfo::operator<`: lexicographic by name then version. -/
def typeInfoLt (a b : DiscreteTypeInfo) : Bool :=
  a.name < b.name || (a.name == b.name && a.version < b.version)

/-- A handle participating in the dispatch system: it reports a type
descriptor via `get_type_info()` and carries its payload. -/
structure Handle where
  typeInfo : DiscreteTypeInfo
  payload : Nat
deriving DecidableEq

/-- `ngraph::is_type<Type>`: the reported descriptor is castable to the
target type's static descriptor. -/
def is_type (target : DiscreteTypeInfo) (v : Handle) : Bool :=
  is_castable v.typeInfo target

/-- `ngraph::as_type<Type>`: the narrowing `static_cast` on a positive
match, null (`none`) otherwise. -/
def as_type (target : DiscreteTypeInfo) (v : Handle) : Option Handle :=
  if is_type target v then some v else none

/-- `ngraph::as_type_ptr<Type>`: the narrowing `static_pointer_cast` on a
positive match, the empty shared pointer (`none`) otherwise. -/
def as_type_ptr (target : DiscreteTypeInfo) (v : Handle) : Option Handle :=
  if is_type target v then some v else none

/-- C9: the is-instance query holds iff the reported descriptor is the
very same object (address equality) as the target descriptor — a
structural duplicate with equal name and version but a different address
never matches — and the narrowing casts return the narrowed handle on a
positive match and null/empty on a negative one, never a failure. -/
theorem claim_C9_type_dispatch (v : Handle) (t : DiscreteTypeInfo) :
    (is_type t v = true ↔ v.typeInfo.addr = t.addr)
    ∧ (v.typeInfo.name = t.name → v.typeInfo.version = t.version →
        v.typeInfo.addr ≠ t.addr → is_type t v = false)
    ∧ (is_type t v = true → as_type t v = some v ∧ as_type_ptr t v = some v)
    ∧ (is_type t v = false → as_type t v = none ∧ as_type_ptr t v = none) := by
  refine ⟨?_, ?_, ?_, ?_⟩
  · simp [is_type, is_castable]
  · intro _ _ hne
    simp [is_type, is_castable]
    exact hne
  · intro h
    constructor <;> simp [as_type, as_type_ptr, h]
  · intro h
    constructor <;> simp [as_type, as_type_ptr, h]

/-- Witness for C9 at concrete inputs: a handle tagged with a structural
duplicate of the target descriptor (same name and version, different
address) is not an instance and both casts return null, while the
identical descriptor matches and both casts narrow. -/
theorem claim_C9_witness :
    is_type ⟨0, "op::Add", 1⟩ ⟨⟨1, "op::Add", 1⟩, 5⟩ = false
    ∧ as_type ⟨0, "op::Add", 1⟩ ⟨⟨1, "op::Add", 1⟩, 5⟩ = none
    ∧ is_type ⟨0, "op::Add", 1⟩ ⟨⟨0, "op::Add", 1⟩, 5⟩ = true
    ∧ as_type_ptr ⟨0, "op::Add", 1⟩ ⟨⟨0, "op::Add", 1⟩, 5⟩ =
        some ⟨⟨0, "op::Add", 1⟩, 5⟩ :=
  ⟨(claim_C9_type_dispatch ⟨⟨1, "op::Add", 1⟩, 5⟩ ⟨0, "op::Add", 1⟩).2.1
      rfl rfl (by decide),
   ((claim_C9_type_dispatch ⟨⟨1, "op::Add", 1⟩, 5⟩ ⟨0, "op::Add", 1⟩).2.2.2
      (by decide)).1,
   ((claim_C9_type_dispatch ⟨⟨0, "op::Add", 1⟩, 5⟩ ⟨0, "op::Add", 1⟩).1).2
      rfl,
   ((claim_C9_type_dispatch ⟨⟨0, "op::Add", 1⟩, 5⟩ ⟨0, "op::Add", 1⟩).2.2.1
      (by decide)).2⟩

/-- Witness for C1 at a concrete unit: in `egGraph` with unit node 1,
tensor 12 (consumed outside) is the sole boundary output even though a
tensor with only in-unit consumers would be skipped, and the list is
duplicate-free in first-discovery order. -/
theorem claim_C1_witness :
    12 ∈ (build_tensors_list egGraph [1]).1
    ∧ (build_tensors_list egGraph [1]).1.Nodup
    ∧ (build_tensors_list egGraph [1]).1 =
        dedupKeepFirst (outputCandidates egGraph [1]) :=
  ⟨((claim_C1_boundary_outputs egGraph [1]).1 12).2
      ⟨1, by decide, (12, [3]), by decide, rfl, 3, by decide, by decide⟩,
   (claim_C1_boundary_outputs egGraph [1]).2.1,
   (claim_C1_boundary_outputs egGraph [1]).2.2⟩

/-- Witness for C2 at a concrete unit: `egGraph` is consumer-coherent,
tensor 10 is produced by outside node 0 and consumed by unit node 1, and
it appears in the boundary-input list exactly once. -/
theorem claim_C2_witness :
    (build_tensors_list egGraph [1]).2.count 10 = 1 :=
  (claim_C2_boundary_inputs egGraph [1]).2.2.2
    (by
      intro p n s hs hn
      match p with
      | 0 =>
        simp [egGraph] at hs
        subst hs
        simp at hn
        subst hn
        decide
      | 1 =>
        simp [egGraph] at hs
        subst hs
        simp at hn
        subst hn
        decide
      | 2 =>
        simp [egGraph] at hs
        subst hs
        simp at hn
        subst hn
        decide
      | (k + 3) => simp [egGraph] at hs)
    10 0 1 (10, [1]) (by decide) (by decide) rfl (by decide) (by decide)

theorem get_mlir_type_error_fatal (ty : Type_t) (e : MlirError)
    (h : get_mlir_type ty = .error e) : ∃ s, e = .fatalAssert s := by
  refine ⟨"MLIR: Unsupported NGraph types", ?_⟩
  cases ty <;> simp [get_mlir_type] at h <;> exact h.symm

theorem get_mlir_type_of_tensor_error_fatal (c : ModuleCfg) (t : Nat)
    (e : MlirError) (h : get_mlir_type_of_tensor c t = .error e) :
    ∃ s, e = .fatalAssert s := by
  unfold get_mlir_type_of_tensor at h
  split at h
  next e2 he2 =>
    simp only [Except.error.injEq] at h
    exact h ▸ get_mlir_type_error_fatal _ _ he2
  next ty hty => exact absurd h (by simp)

theorem map_types_error_fatal (c : ModuleCfg) (ts : List Nat) (e : MlirError)
    (h : map_types c ts = .error e) : ∃ s, e = .fatalAssert s := by
  induction ts generalizing e with
  | nil => exact absurd h (by simp [map_types])
  | cons t ts ih =>
    unfold map_types at h
    split at h
    next e2 he2 =>
      simp only [Except.error.injEq] at h
      exact h ▸ get_mlir_type_of_tensor_error_fatal _ _ _ he2
    next ty hty =>
      split at h
      next e2 he2 =>
        simp only [Except.error.injEq] at h
        exact h ▸ ih _ he2
      next tys htys => exact absurd h (by simp)

theorem build_module_unsupported_inv (mc : ModuleCfg) (s : String)
    (h : build_module mc = .error (.unsupportedOp s)) :
    build_ng_dialect mc.g mc.subGraph
      (seedMap (build_tensors_list mc.g mc.subGraph).2)
      (build_tensors_list mc.g mc.subGraph).1 =
      .error (.unsupportedOp s) := by
  unfold build_module at h
  split at h
  · exact absurd h (by simp)
  · split at h
    · exact absurd h (by simp)
    · split at h
      next e1 hm1 =>
        simp only [Except.error.injEq] at h
        obtain ⟨s1, hs1⟩ := map_types_error_fatal _ _ _ hm1
        rw [h] at hs1
        exact absurd hs1 (by simp)
      next tys1 hm1 =>
        split at h
        next e2 hm2 =>
          simp only [Except.error.injEq] at h
          obtain ⟨s2, hs2⟩ := map_types_error_fatal _ _ _ hm2
          rw [h] at hs2
          exact absurd hs2 (by simp)
        next tys2 hm2 =>
          split at h
          next e3 hd =>
            simp only [Except.error.injEq] at h
            rw [h] at hd
            exact hd
          next vm hd => exact absurd h (by simp)

theorem allocate_memref_descriptor_error_fatal (t : MType) (e : MlirError)
    (h : allocate_memref_descriptor t = .error e) :
    ∃ s, e = .fatalAssert s := by
  unfold allocate_memref_descriptor at h
  split at h
  · exact absurd h (by simp)
  · split at h
    · simp only [Except.error.injEq] at h
      exact ⟨_, h.symm⟩
    · exact absurd h (by simp)

theorem allocate_memref_args_error_fatal (params : List MType)
    (e : MlirError) (h : allocate_memref_args params = .error e) :
    ∃ s, e = .fatalAssert s := by
  induction params generalizing e with
  | nil => exact absurd h (by simp [allocate_memref_args])
  | cons t ts ih =>
    unfold allocate_memref_args at h
    split at h
    next e2 hd =>
      simp only [Except.error.injEq] at h
      exact h ▸ allocate_memref_descriptor_error_fatal _ _ hd
    next hd => exact ih _ h
    next d hd =>
      split at h
      next e2 hr =>
        simp only [Except.error.injEq] at h
        exact h ▸ ih _ hr
      next ds hr => exact absurd h (by simp)

theorem bind_arguments_error_fatal (params : List MType) (ext : List Nat)
    (mgr : Nat) (e : MlirError)
    (h : bind_arguments params ext mgr = .error e) :
    ∃ s, e = .fatalAssert s := by
  unfold bind_arguments at h
  split at h
  next e2 ha =>
    simp only [Except.error.injEq] at h
    exact h ▸ allocate_memref_args_error_fatal _ _ ha
  next descs ha =>
    split at h
    · simp only [Except.error.injEq] at h
      exact ⟨_, h.symm⟩
    · split at h
      · simp only [Except.error.injEq] at h
        exact ⟨_, h.symm⟩
      · dsimp only [] at h
        split at h
        · exact absurd h (by simp)
        · simp only [Except.error.injEq] at h
          exact ⟨_, h.symm⟩

/-- C4: dispatching a unit whose single node has a concrete type absent
from `op_dispatcher` yields exactly the typed `unsupported_op` failure,
whose message contains the node diagnostic name; conversely, whenever
the lowering fails with `unsupported_op`, the unit is a single node
whose type misses the table and the message is the one built from its
name; and across the whole `compile_and_run` pipeline the
unsupported-operation failure arises only from that dispatch miss —
every other failure of any phase is a fatal assertion. -/
theorem claim_C4_unsupported_operation (g : Nat → NgNode) (vmap : VMap)
    (opT : List Nat) :
    (∀ nid, op_dispatcher (g nid).opType = none →
      build_ng_dialect g [nid] vmap opT =
          .error (.unsupportedOp (unsupportedMsg (g nid).description))
        ∧ ∃ pre post, unsupportedMsg (g nid).description =
            pre ++ (g nid).description ++ post)
    ∧ (∀ (sub : List Nat) (s : String),
        build_ng_dialect g sub vmap opT = .error (.unsupportedOp s) →
        ∃ nid, sub = [nid] ∧ op_dispatcher (g nid).opType = none ∧
          s = unsupportedMsg (g nid).description)
    ∧ (∀ (c : RunCfg) (s : String),
        (compile_and_run c).result = .error (.unsupportedOp s) →
        ∃ nid, c.subGraph = [nid] ∧
          op_dispatcher ((c.g) nid).opType = none ∧
          s = unsupportedMsg ((c.g) nid).description) := by
  refine ⟨?_, ?_, ?_⟩
  · intro nid hmiss
    exact ⟨build_ng_dialect_miss g vmap opT nid hmiss,
      "The MLIR backend does not currently implement the ",
      " operation", rfl⟩
  · intro sub s h
    exact build_ng_dialect_unsupported_inv g vmap opT sub s h
  · intro c s h
    cases hb : build_module ⟨c.g, c.subGraph, c.tensorElt, c.tensorShape⟩ with
    | error e0 =>
      simp [compile_and_run, hb] at h
      have h2 : build_module ⟨c.g, c.subGraph, c.tensorElt, c.tensorShape⟩ =
          .error (.unsupportedOp s) := by rw [hb, h]
      have h3 := build_module_unsupported_inv _ _ h2
      exact build_ng_dialect_unsupported_inv _ _ _ _ _ h3
    | ok r =>
      by_cases ho : c.optimizeOk = false
      · simp [compile_and_run, hb, ho] at h
      · cases ha : bind_arguments c.loweredParams c.externalTensors
            c.memMgrPtr with
        | error e1 =>
          simp [compile_and_run, hb, ho, ha] at h
          obtain ⟨s2, hs2⟩ := bind_arguments_error_fatal _ _ _ _ ha
          rw [hs2] at h
          exact absurd h (by simp)
        | ok args =>
          by_cases hc2 : c.convertOk = false
          · simp [compile_and_run, hb, ho, ha, hc2] at h
          · by_cases he2 : c.engineOk = false
            · simp [compile_and_run, hb, ho, ha, hc2, he2] at h
            · by_cases hi : c.invocationOk = false
              · simp [compile_and_run, hb, ho, ha, hc2, he2, hi] at h
              · simp [compile_and_run, hb, ho, ha, hc2, he2, hi] at h

/-- Witness for C4 at a concrete input: a single node of an unregistered
concrete type with diagnostic name Abs yields the unsupported-operation
failure carrying that name. -/
theorem claim_C4_witness :
    build_ng_dialect (fun _ => ⟨[(0, [])], [], .other 7, "Abs"⟩) [0] [] [] =
      .error (.unsupportedOp
        "The MLIR backend does not currently implement the Abs operation") :=
  ((claim_C4_unsupported_operation
    (fun _ => ⟨[(0, [])], [], .other 7, "Abs"⟩) [] []).1 0 rfl).1
